import Mathlib

/-!
Verification of the client-side table logic of TranscriptsToChat
(src/MainScript.js) against its specification.

Each definition is a shallow embedding of the corresponding JavaScript
function; JS strings become `String`, JS numbers carrying counts become
`Nat`, JS numbers carrying slider positions become `ℚ`, JS objects become
structures, and JS dictionaries become association lists that keep
insertion order (as `Object.values` does).
-/

set_option maxHeartbeats 1000000

namespace TranscriptsToChat

/-- The four optional dimension columns, `allKeys = ['Category', 'Topic',
'Intent', 'Agent_Task']` in `aggregateDataByVisibleColumns`. -/
inductive DimKey where
  | category
  | topic
  | intent
  | agentTask
deriving DecidableEq, Repr

/-- A summary row as held in `currentChatData`: the four dimension values
plus the `Volume` count returned by the backend summary endpoint. -/
structure SummaryRow where
  Category : String
  Topic : String
  Intent : String
  Agent_Task : String
  Volume : Nat
deriving DecidableEq, Repr

/-- The `visibleColumns` map.  The JS test is `visibleCols[key] !== false`,
so `true` here models "not hidden". -/
structure Vis where
  Category : Bool
  Topic : Bool
  Intent : Bool
  Agent_Task : Bool
deriving DecidableEq, Repr

/-- Field access `row[key]` for a dimension key. -/
def SummaryRow.get (r : SummaryRow) : DimKey → String
  | .category => r.Category
  | .topic => r.Topic
  | .intent => r.Intent
  | .agentTask => r.Agent_Task

/-- Visibility flag `visibleCols[key] !== false` for a dimension key. -/
def Vis.get (v : Vis) : DimKey → Bool
  | .category => v.Category
  | .topic => v.Topic
  | .intent => v.Intent
  | .agentTask => v.Agent_Task

/-- The fixed list `allKeys` of `aggregateDataByVisibleColumns`. -/
def allKeys : List DimKey := [.category, .topic, .intent, .agentTask]

/-- JS `allKeys.filter(key => visibleCols[key] !== false)`. -/
def visibleKeys (v : Vis) : List DimKey := allKeys.filter (fun k => v.get k)

/-- JS `allKeys.filter(key => visibleCols[key] === false)`. -/
def hiddenKeys (v : Vis) : List DimKey := allKeys.filter (fun k => !(v.get k))

/-- JS `row[key] || 'N/A'`: the empty string is the only falsy string. -/
def keyPart (r : SummaryRow) (k : DimKey) : String :=
  if r.get k = "" then "N/A" else r.get k

/-- The grouping key `keyParts.join('|')` built from the visible columns. -/
def groupKey (v : Vis) (r : SummaryRow) : String :=
  String.intercalate "|" ((visibleKeys v).map (keyPart r))

/-- An aggregated output row of `aggregateDataByVisibleColumns`: the spread
of the first row of the group, a summed `Volume`, and the `_hidden_<key>`
arrays of unique values seen for each hidden column.  In JS the hidden
arrays exist only for hidden keys; here they are present for all four keys
but stay `[]` for visible keys, which the JS object never materialises. -/
structure AggRow where
  Category : String
  Topic : String
  Intent : String
  Agent_Task : String
  Volume : Nat
  hiddenCategory : List String
  hiddenTopic : List String
  hiddenIntent : List String
  hiddenAgentTask : List String
deriving DecidableEq, Repr

/-- Field access `grouped[groupKey][key]` for a dimension key. -/
def AggRow.get (g : AggRow) : DimKey → String
  | .category => g.Category
  | .topic => g.Topic
  | .intent => g.Intent
  | .agentTask => g.Agent_Task

/-- JS `if (!hiddenArray.includes(value)) hiddenArray.push(value)`. -/
def pushUnique (l : List String) (s : String) : List String :=
  if s ∈ l then l else l ++ [s]

/-- JS `grouped[groupKey] = { ...row, Volume: 0 }` followed by re-assigning the
visible fields from the same row (a no-op) and creating empty hidden
arrays. -/
def initAgg (r : SummaryRow) : AggRow :=
  { Category := r.Category
    Topic := r.Topic
    Intent := r.Intent
    Agent_Task := r.Agent_Task
    Volume := 0
    hiddenCategory := []
    hiddenTopic := []
    hiddenIntent := []
    hiddenAgentTask := [] }

/-- The per-row body of the `data.forEach` loop once the group exists:
`Volume` is summed, and for each hidden key the value is pushed into the
unique-value array and fills the display field if it is still falsy. -/
def mergeRow (v : Vis) (g : AggRow) (r : SummaryRow) : AggRow :=
  { Category :=
      if v.Category then g.Category
      else if g.Category = "" then r.Category else g.Category
    Topic :=
      if v.Topic then g.Topic
      else if g.Topic = "" then r.Topic else g.Topic
    Intent :=
      if v.Intent then g.Intent
      else if g.Intent = "" then r.Intent else g.Intent
    Agent_Task :=
      if v.Agent_Task then g.Agent_Task
      else if g.Agent_Task = "" then r.Agent_Task else g.Agent_Task
    Volume := g.Volume + r.Volume
    hiddenCategory :=
      if v.Category then g.hiddenCategory else pushUnique g.hiddenCategory r.Category
    hiddenTopic :=
      if v.Topic then g.hiddenTopic else pushUnique g.hiddenTopic r.Topic
    hiddenIntent :=
      if v.Intent then g.hiddenIntent else pushUnique g.hiddenIntent r.Intent
    hiddenAgentTask :=
      if v.Agent_Task then g.hiddenAgentTask else pushUnique g.hiddenAgentTask r.Agent_Task }

/-- One iteration of the `forEach` over the JS dictionary `grouped`,
modelled as an insertion-ordered association list: the entry for key `k`
is updated in place if present, otherwise appended (JS object property
insertion order). -/
def insertRow (v : Vis) (k : String) (r : SummaryRow) :
    List (String × AggRow) → List (String × AggRow)
  | [] => [(k, mergeRow v (initAgg r) r)]
  | (k0, g) :: rest =>
    if k0 = k then (k0, mergeRow v g r) :: rest
    else (k0, g) :: insertRow v k r rest

/-- The `data.forEach` loop of `aggregateDataByVisibleColumns` as a fold
over the association list of groups. -/
def groupFold (v : Vis) (data : List SummaryRow) (acc : List (String × AggRow)) :
    List (String × AggRow) :=
  data.foldl (fun acc r => insertRow v (groupKey v r) r acc) acc

/-- JS `aggregateDataByVisibleColumns(data, visibleCols)`: group the rows by
their visible-column key and return `Object.values(grouped)`.  The JS
early return for empty `data` returns the same empty list the fold
produces, so it needs no separate branch. -/
def aggregateDataByVisibleColumns (data : List SummaryRow) (visibleCols : Vis) :
    List AggRow :=
  (groupFold visibleCols data []).map Prod.snd

/-- Total `Volume` of a list of input rows. -/
def sumVolume (l : List SummaryRow) : Nat := (l.map SummaryRow.Volume).sum

/-- Total `Volume` of a list of aggregated rows. -/
def sumVolumeAgg (l : List AggRow) : Nat := (l.map AggRow.Volume).sum

/-- Total `Volume` stored in the association list of groups. -/
def entriesVolume (l : List (String × AggRow)) : Nat :=
  (l.map (fun p => p.2.Volume)).sum

theorem entriesVolume_insertRow (v : Vis) (k : String) (r : SummaryRow) :
    ∀ acc : List (String × AggRow),
      entriesVolume (insertRow v k r acc) = entriesVolume acc + r.Volume := by
  intro acc
  induction acc with
  | nil => simp [insertRow, entriesVolume, mergeRow, initAgg]
  | cons p rest ih =>
    obtain ⟨k0, g⟩ := p
    by_cases h : k0 = k
    · simp [insertRow, h, entriesVolume, mergeRow]
      omega
    · simp [insertRow, h, entriesVolume] at ih ⊢
      omega

theorem entriesVolume_foldl (v : Vis) :
    ∀ (data : List SummaryRow) (acc : List (String × AggRow)),
      entriesVolume (groupFold v data acc) =
        entriesVolume acc + sumVolume data := by
  intro data
  induction data with
  | nil => intro acc; simp [groupFold, sumVolume]
  | cons r rest ih =>
    intro acc
    simp only [groupFold, List.foldl_cons]
    rw [show ∀ a, List.foldl (fun acc r => insertRow v (groupKey v r) r acc) a rest =
      groupFold v rest a from fun _ => rfl, ih, entriesVolume_insertRow]
    simp [sumVolume]
    omega

/-- C1: client-side re-aggregation preserves the total `Volume`: for every
row list and every column-visibility map, the sum of `Volume` over the
rows returned by `aggregateDataByVisibleColumns` equals the sum of
`Volume` over the input rows. -/
theorem aggregate_preserves_total_volume
    (data : List SummaryRow) (visibleCols : Vis) :
    sumVolumeAgg (aggregateDataByVisibleColumns data visibleCols) = sumVolume data := by
  have h := entriesVolume_foldl visibleCols data []
  simp [entriesVolume] at h
  simpa [aggregateDataByVisibleColumns, sumVolumeAgg, entriesVolume,
    List.map_map, Function.comp] using h

/-- The grouping key an aggregated output row carries: its visible display
fields joined as in `groupKey` (the output row inherits those fields from
the first row of its group). -/
def aggKey (v : Vis) (g : AggRow) : String :=
  String.intercalate "|"
    ((visibleKeys v).map (fun k => if g.get k = "" then "N/A" else g.get k))

theorem mem_visibleKeys {v : Vis} {k : DimKey} (h : k ∈ visibleKeys v) :
    v.get k = true := by
  simp [visibleKeys, List.mem_filter] at h
  exact h.2

theorem mergeRow_get_visible (v : Vis) (g : AggRow) (r : SummaryRow) (k : DimKey)
    (h : v.get k = true) : (mergeRow v g r).get k = g.get k := by
  cases k <;> simp [Vis.get] at h <;> simp [mergeRow, AggRow.get, h]

theorem initAgg_get (r : SummaryRow) (k : DimKey) : (initAgg r).get k = r.get k := by
  cases k <;> rfl

theorem aggKey_mergeRow (v : Vis) (g : AggRow) (r : SummaryRow) :
    aggKey v (mergeRow v g r) = aggKey v g := by
  unfold aggKey
  congr 1
  apply List.map_congr_left
  intro k hk
  rw [mergeRow_get_visible v g r k (mem_visibleKeys hk)]

theorem aggKey_init (v : Vis) (r : SummaryRow) :
    aggKey v (mergeRow v (initAgg r) r) = groupKey v r := by
  unfold aggKey groupKey
  congr 1
  apply List.map_congr_left
  intro k hk
  rw [mergeRow_get_visible v _ r k (mem_visibleKeys hk), initAgg_get]
  rfl

theorem keys_insertRow (v : Vis) (k : String) (r : SummaryRow) :
    ∀ l : List (String × AggRow),
      (insertRow v k r l).map Prod.fst =
        if k ∈ l.map Prod.fst then l.map Prod.fst else l.map Prod.fst ++ [k] := by
  intro l
  induction l with
  | nil => simp [insertRow]
  | cons q rest ih =>
    obtain ⟨k0, g⟩ := q
    by_cases h : k0 = k
    · simp [insertRow, h]
    · simp only [insertRow, if_neg h, List.map_cons]
      rw [ih]
      by_cases hk : k ∈ rest.map Prod.fst
      · simp [hk, Ne.symm h]
      · simp [hk, Ne.symm h]

theorem self_mem_keys_insertRow (v : Vis) (k : String) (r : SummaryRow)
    (l : List (String × AggRow)) : k ∈ (insertRow v k r l).map Prod.fst := by
  rw [keys_insertRow]
  by_cases hk : k ∈ l.map Prod.fst <;> simp [hk]

theorem keys_subset_insertRow (v : Vis) (k : String) (r : SummaryRow)
    (l : List (String × AggRow)) (key : String) (h : key ∈ l.map Prod.fst) :
    key ∈ (insertRow v k r l).map Prod.fst := by
  rw [keys_insertRow]
  by_cases hk : k ∈ l.map Prod.fst <;> simp [hk, h]

theorem keys_nodup_insertRow (v : Vis) (k : String) (r : SummaryRow)
    (l : List (String × AggRow)) (h : (l.map Prod.fst).Nodup) :
    ((insertRow v k r l).map Prod.fst).Nodup := by
  rw [keys_insertRow]
  by_cases hk : k ∈ l.map Prod.fst
  · simpa [hk]
  · simp [hk, List.nodup_append, h]

theorem insertRow_key_inv (v : Vis) (r : SummaryRow) (k : String)
    (hk : groupKey v r = k) :
    ∀ l : List (String × AggRow), (∀ p ∈ l, aggKey v p.2 = p.1) →
      ∀ p ∈ insertRow v k r l, aggKey v p.2 = p.1 := by
  intro l
  induction l with
  | nil =>
    intro _ p hp
    simp [insertRow] at hp
    subst hp
    simp [aggKey_init, hk]
  | cons q rest ih =>
    obtain ⟨k0, g⟩ := q
    intro hl p hp
    by_cases h : k0 = k
    · subst h
      simp [insertRow] at hp
      rcases hp with hp | hp
      · subst hp
        simpa [aggKey_mergeRow] using hl (k0, g) (by simp)
      · exact hl p (by simp [hp])
    · simp only [insertRow, if_neg h, List.mem_cons] at hp
      rcases hp with hp | hp
      · subst hp
        exact hl (k0, g) (by simp)
      · exact ih (fun p hp => hl p (by simp [hp])) p hp

/-- Total `Volume` stored under a given group key in the association list. -/
def volKey (key : String) (l : List (String × AggRow)) : Nat :=
  ((l.filter (fun p => p.1 = key)).map (fun p => p.2.Volume)).sum

theorem volKey_cons (key : String) (p : String × AggRow) (l : List (String × AggRow)) :
    volKey key (p :: l) = (if p.1 = key then p.2.Volume else 0) + volKey key l := by
  by_cases h : p.1 = key <;> simp [volKey, h]

theorem volKey_insertRow (v : Vis) (k key : String) (r : SummaryRow) :
    ∀ l : List (String × AggRow),
      volKey key (insertRow v k r l) =
        volKey key l + (if k = key then r.Volume else 0) := by
  intro l
  induction l with
  | nil => by_cases h : k = key <;> simp [insertRow, volKey, h, mergeRow, initAgg]
  | cons q rest ih =>
    obtain ⟨k0, g⟩ := q
    by_cases h : k0 = k
    · subst h
      have hins : insertRow v k0 r ((k0, g) :: rest) = (k0, mergeRow v g r) :: rest := by
        simp [insertRow]
      rw [hins, volKey_cons, volKey_cons]
      by_cases h2 : k0 = key <;> (simp [h2, mergeRow]; try omega)
    · simp only [insertRow, if_neg h]
      rw [volKey_cons, volKey_cons, ih]
      omega

theorem groupFold_inv (v : Vis) :
    ∀ (data : List SummaryRow) (acc : List (String × AggRow)),
      (∀ p ∈ acc, aggKey v p.2 = p.1) →
      (acc.map Prod.fst).Nodup →
      (∀ p ∈ groupFold v data acc, aggKey v p.2 = p.1) ∧
      ((groupFold v data acc).map Prod.fst).Nodup ∧
      (∀ key, key ∈ acc.map Prod.fst → key ∈ (groupFold v data acc).map Prod.fst) ∧
      (∀ r ∈ data, groupKey v r ∈ (groupFold v data acc).map Prod.fst) ∧
      (∀ key, volKey key (groupFold v data acc) =
        volKey key acc + sumVolume (data.filter (fun r => groupKey v r = key))) := by
  intro data
  induction data with
  | nil =>
    intro acc hP hQ
    refine ⟨hP, hQ, fun key h => h, ?_, ?_⟩
    · intro r0 hr0
      simp at hr0
    · intro key
      simp [groupFold, sumVolume]
  | cons r rest ih =>
    intro acc hP hQ
    have hfold : groupFold v (r :: rest) acc =
        groupFold v rest (insertRow v (groupKey v r) r acc) := rfl
    have hP2 := insertRow_key_inv v r (groupKey v r) rfl acc hP
    have hQ2 := keys_nodup_insertRow v (groupKey v r) r acc hQ
    obtain ⟨P3, Q3, K3, M3, V3⟩ := ih (insertRow v (groupKey v r) r acc) hP2 hQ2
    rw [hfold]
    refine ⟨P3, Q3, ?_, ?_, ?_⟩
    · intro key hkey
      exact K3 key (keys_subset_insertRow v _ r acc key hkey)
    · intro r0 hr0
      rcases List.mem_cons.mp hr0 with hr0 | hr0
      · rw [hr0]
        exact K3 _ (self_mem_keys_insertRow v _ r acc)
      · exact M3 r0 hr0
    · intro key
      rw [V3 key, volKey_insertRow]
      by_cases h : groupKey v r = key <;> (simp [h, sumVolume]; try omega)

theorem filter_map_snd (p : AggRow → Bool) :
    ∀ l : List (String × AggRow),
      (l.map Prod.snd).filter p = (l.filter (fun q => p q.2)).map Prod.snd := by
  intro l
  induction l with
  | nil => rfl
  | cons q rest ih =>
    by_cases h : p q.2 <;> simp [List.filter_cons, h, ih]

/-- C2 (amended): `aggregateDataByVisibleColumns` merges input rows by
equality of their grouping key `groupKey` — the `'|'`-join of the visible
column values with empty values rendered `'N/A'` — rather than by
agreement on every visible dimension.  Rows agreeing on every visible
dimension always have equal keys and hence merge; each output row carries
a distinct key, every input row is represented by an output row with its
key, and each output row's `Volume` is the sum of the `Volume`s of exactly
the input rows with its key. -/
theorem aggregate_merges_by_group_key (data : List SummaryRow) (v : Vis) :
    ((aggregateDataByVisibleColumns data v).map (aggKey v)).Nodup ∧
    (∀ r ∈ data, ∃ g ∈ aggregateDataByVisibleColumns data v,
       aggKey v g = groupKey v r) ∧
    (∀ key : String,
       sumVolumeAgg
           ((aggregateDataByVisibleColumns data v).filter
             (fun g => aggKey v g = key)) =
         sumVolume (data.filter (fun r => groupKey v r = key))) := by
  obtain ⟨P, Q, _, M, V⟩ := groupFold_inv v data [] (by simp) (by simp)
  refine ⟨?_, ?_, ?_⟩
  · rw [aggregateDataByVisibleColumns, List.map_map]
    have hcong : ∀ p ∈ groupFold v data [], (aggKey v ∘ Prod.snd) p = Prod.fst p :=
      fun p hp => P p hp
    rw [List.map_congr_left hcong]
    exact Q
  · intro r hr
    obtain ⟨p, hp, hpk⟩ := List.mem_map.mp (M r hr)
    refine ⟨p.2, ?_, by rw [P p hp, hpk]⟩
    rw [aggregateDataByVisibleColumns]
    exact List.mem_map_of_mem Prod.snd hp
  · intro key
    have hV := V key
    simp only [volKey, List.filter_nil, List.map_nil, List.sum_nil, Nat.zero_add] at hV
    rw [aggregateDataByVisibleColumns, filter_map_snd]
    have hcong : (groupFold v data []).filter (fun q => decide (aggKey v q.2 = key)) =
        (groupFold v data []).filter (fun q => decide (q.1 = key)) := by
      apply List.filter_congr
      intro q hq
      simp [P q hq]
    rw [hcong]
    simpa [sumVolumeAgg, volKey, List.map_map, Function.comp] using hV

/-- C2 (counterexample to the claim as stated): with all four columns
visible, the rows `("a|b", "c", "x", "y")` and `("a", "b|c", "x", "y")`
differ in the visible `Category` (and `Topic`) dimension, yet their
`'|'`-joined group keys coincide, so `aggregateDataByVisibleColumns`
merges them into a single output row with the summed `Volume 2`. -/
theorem aggregate_merge_claim_counterexample :
    (SummaryRow.mk "a|b" "c" "x" "y" 1).Category ≠
        (SummaryRow.mk "a" "b|c" "x" "y" 1).Category ∧
    (aggregateDataByVisibleColumns
        [SummaryRow.mk "a|b" "c" "x" "y" 1, SummaryRow.mk "a" "b|c" "x" "y" 1]
        (Vis.mk true true true true)).length = 1 ∧
    (aggregateDataByVisibleColumns
        [SummaryRow.mk "a|b" "c" "x" "y" 1, SummaryRow.mk "a" "b|c" "x" "y" 1]
        (Vis.mk true true true true)).map AggRow.Volume = [2] := by
  refine ⟨by decide, by decide, by decide⟩

/-! Sorting: `createChatSummaryTable` and `handleChatTableSort`. -/

/-- The sortable columns of the summary table (the `AI_Chat` icon column is
not sortable: its header carries no onclick handler). -/
inductive SortKey where
  | category
  | topic
  | intent
  | agentTask
  | volume
deriving DecidableEq, Repr

/-- Sort direction, `currentSortDirection`. -/
inductive SortDir where
  | asc
  | desc
deriving DecidableEq, Repr

/-- JS `direction === 'asc' ? 'desc' : 'asc'`. -/
def SortDir.toggle : SortDir → SortDir
  | .asc => .desc
  | .desc => .asc

/-- JS `String(row[key])` as used by the text branch of the comparator. -/
def SummaryRow.textOf (r : SummaryRow) : SortKey → String
  | .category => r.Category
  | .topic => r.Topic
  | .intent => r.Intent
  | .agentTask => r.Agent_Task
  | .volume => toString r.Volume

/-- The comparator `handleChatTableSort` passes to `currentChatData.sort`.
The column type read from the header's `data-type` attribute is `'number'`
exactly for the `Volume` column (see `allColumnDefinitions`); every other
sortable column compares its lower-cased string values. -/
def chatCompare (key : SortKey) (dir : SortDir) (a b : SummaryRow) : Int :=
  if key = .volume then
    match dir with
    | .asc => (a.Volume : Int) - (b.Volume : Int)
    | .desc => (b.Volume : Int) - (a.Volume : Int)
  else
    let strA := (a.textOf key).toLower
    let strB := (b.textOf key).toLower
    if strA < strB then (if dir = .asc then -1 else 1)
    else if strB < strA then (if dir = .asc then 1 else -1)
    else 0

/-- ES2019 `Array.prototype.sort` with a consistent comparator: a stable
sort whose output is ordered by the comparator, modelled by the stable
`List.insertionSort` with the order `cmp a b ≤ 0`. -/
def jsSort {α : Type} (cmp : α → α → Int) (l : List α) : List α :=
  l.insertionSort (fun a b => cmp a b ≤ 0)

/-- The client table state mutated by the sort handler: `currentChatData`,
`currentSortColumn`, `currentSortDirection`. -/
structure TableState where
  data : List SummaryRow
  sortColumn : SortKey
  sortDirection : SortDir
deriving DecidableEq, Repr

/-- JS `handleChatTableSort(key)`: no-op on an empty table; otherwise flip the
direction when `key` is the current sort column, else select `key` with
direction descending for `Volume` and ascending otherwise, then sort
`currentChatData` with the comparator. -/
def handleChatTableSort (st : TableState) (key : SortKey) : TableState :=
  if st.data = [] then st
  else
    let direction :=
      if key = st.sortColumn then st.sortDirection.toggle
      else if key = SortKey.volume then SortDir.desc else SortDir.asc
    { data := jsSort (chatCompare key direction) st.data
      sortColumn := key
      sortDirection := direction }

/-- JS `createChatSummaryTable`: stores the rows in `currentChatData` (the
in-place `data.sort((a, b) => b.Volume - a.Volume)` leaves them sorted by
Volume descending) and resets `currentSortColumn`/`currentSortDirection`
to `Volume`/descending. -/
def createChatSummaryTableState (data : List SummaryRow) : TableState :=
  { data := jsSort (fun a b => (b.Volume : Int) - (a.Volume : Int)) data
    sortColumn := SortKey.volume
    sortDirection := SortDir.desc }

/-- The ordering the spec describes for a displayed sort: the `Volume`
column compares numerically and every other column compares its values
case-insensitively as text, in the current direction. -/
def claimOrder (key : SortKey) (dir : SortDir) (a b : SummaryRow) : Prop :=
  if key = .volume then
    match dir with
    | .asc => a.Volume ≤ b.Volume
    | .desc => b.Volume ≤ a.Volume
  else
    match dir with
    | .asc => (a.textOf key).toLower ≤ (b.textOf key).toLower
    | .desc => (b.textOf key).toLower ≤ (a.textOf key).toLower

theorem chatCompare_nonpos_iff (key : SortKey) (dir : SortDir) (a b : SummaryRow) :
    chatCompare key dir a b ≤ 0 ↔ claimOrder key dir a b := by
  by_cases hk : key = SortKey.volume
  · subst hk
    cases dir <;> (simp [chatCompare, claimOrder]; try omega)
  · rcases lt_trichotomy ((a.textOf key).toLower) ((b.textOf key).toLower)
      with h | h | h
    · cases dir <;> simp [chatCompare, claimOrder, hk, h, lt_asymm h, le_of_lt h, not_le.mpr h]
    · cases dir <;> simp [chatCompare, claimOrder, hk, h]
    · cases dir <;> simp [chatCompare, claimOrder, hk, h, lt_asymm h, le_of_lt h, not_le.mpr h]

theorem claimOrder_total (key : SortKey) (dir : SortDir) (a b : SummaryRow) :
    claimOrder key dir a b ∨ claimOrder key dir b a := by
  by_cases hk : key = SortKey.volume
  · subst hk
    cases dir <;> simp [claimOrder] <;> omega
  · cases dir <;> simp [claimOrder, hk] <;> apply le_total

theorem claimOrder_trans (key : SortKey) (dir : SortDir) (a b c : SummaryRow)
    (h1 : claimOrder key dir a b) (h2 : claimOrder key dir b c) :
    claimOrder key dir a c := by
  by_cases hk : key = SortKey.volume
  · subst hk
    cases dir <;> simp_all [claimOrder] <;> omega
  · cases dir <;> simp_all [claimOrder, hk]
    · exact le_trans h1 h2
    · exact le_trans h2 h1

theorem chatCompare_le_trans (key : SortKey) (dir : SortDir) :
    ∀ a b c : SummaryRow,
      chatCompare key dir a b ≤ 0 → chatCompare key dir b c ≤ 0 →
      chatCompare key dir a c ≤ 0 := by
  intro a b c h1 h2
  rw [chatCompare_nonpos_iff] at h1 h2 ⊢
  exact claimOrder_trans key dir a b c h1 h2

theorem chatCompare_le_total (key : SortKey) (dir : SortDir) :
    ∀ a b : SummaryRow,
      chatCompare key dir a b ≤ 0 ∨ chatCompare key dir b a ≤ 0 := by
  intro a b
  rw [chatCompare_nonpos_iff, chatCompare_nonpos_iff]
  exact claimOrder_total key dir a b

theorem jsSort_perm {α : Type} (cmp : α → α → Int) (l : List α) :
    (jsSort cmp l).Perm l :=
  List.perm_insertionSort _ l

theorem jsSort_pairwise {α : Type} (cmp : α → α → Int)
    (htrans : ∀ a b c, cmp a b ≤ 0 → cmp b c ≤ 0 → cmp a c ≤ 0)
    (htotal : ∀ a b, cmp a b ≤ 0 ∨ cmp b a ≤ 0) (l : List α) :
    (jsSort cmp l).Pairwise (fun a b => cmp a b ≤ 0) :=
  @List.sorted_insertionSort α (fun a b => cmp a b ≤ 0) _
    ⟨htotal⟩ ⟨fun _ _ _ => htrans _ _ _⟩ l

/-- C3: on a non-empty displayed summary, a Sort event on a sortable key
flips the direction when the key is the current sort column, otherwise
selects the key with direction descending for `Volume` and ascending
otherwise; the resulting rows are a permutation of the previous rows,
ordered with `Volume` compared numerically and every other column
compared case-insensitively as text. -/
theorem handleChatTableSort_spec (st : TableState) (key : SortKey)
    (hne : st.data ≠ []) :
    (handleChatTableSort st key).sortColumn = key ∧
    (handleChatTableSort st key).sortDirection =
      (if key = st.sortColumn then st.sortDirection.toggle
       else if key = SortKey.volume then SortDir.desc else SortDir.asc) ∧
    (handleChatTableSort st key).data.Perm st.data ∧
    (handleChatTableSort st key).data.Pairwise
      (claimOrder key ((handleChatTableSort st key).sortDirection)) := by
  rw [handleChatTableSort, if_neg hne]
  refine ⟨rfl, rfl, ?_, ?_⟩
  · exact jsSort_perm _ st.data
  · have hs := jsSort_pairwise
      (chatCompare key (if key = st.sortColumn then st.sortDirection.toggle
        else if key = SortKey.volume then SortDir.desc else SortDir.asc))
      (chatCompare_le_trans key _) (chatCompare_le_total key _) st.data
    refine hs.imp ?_
    intro a b h
    exact (chatCompare_nonpos_iff _ _ a b).mp h

/-- Witness for `handleChatTableSort_spec` at a concrete two-row table
sorted by Volume descending, clicking the Category column. -/
theorem handleChatTableSort_spec_witness :
    (TableState.mk [SummaryRow.mk "b" "t" "i" "g" 2, SummaryRow.mk "A" "t" "i" "g" 1]
        SortKey.volume SortDir.desc).data ≠ [] ∧
    ((handleChatTableSort
        (TableState.mk [SummaryRow.mk "b" "t" "i" "g" 2, SummaryRow.mk "A" "t" "i" "g" 1]
          SortKey.volume SortDir.desc) SortKey.category).sortColumn = SortKey.category ∧
     (handleChatTableSort
        (TableState.mk [SummaryRow.mk "b" "t" "i" "g" 2, SummaryRow.mk "A" "t" "i" "g" 1]
          SortKey.volume SortDir.desc) SortKey.category).sortDirection =
       (if SortKey.category = (TableState.mk
            [SummaryRow.mk "b" "t" "i" "g" 2, SummaryRow.mk "A" "t" "i" "g" 1]
            SortKey.volume SortDir.desc).sortColumn
        then (TableState.mk [SummaryRow.mk "b" "t" "i" "g" 2, SummaryRow.mk "A" "t" "i" "g" 1]
            SortKey.volume SortDir.desc).sortDirection.toggle
        else if SortKey.category = SortKey.volume then SortDir.desc else SortDir.asc) ∧
     (handleChatTableSort
        (TableState.mk [SummaryRow.mk "b" "t" "i" "g" 2, SummaryRow.mk "A" "t" "i" "g" 1]
          SortKey.volume SortDir.desc) SortKey.category).data.Perm
       (TableState.mk [SummaryRow.mk "b" "t" "i" "g" 2, SummaryRow.mk "A" "t" "i" "g" 1]
          SortKey.volume SortDir.desc).data ∧
     (handleChatTableSort
        (TableState.mk [SummaryRow.mk "b" "t" "i" "g" 2, SummaryRow.mk "A" "t" "i" "g" 1]
          SortKey.volume SortDir.desc) SortKey.category).data.Pairwise
       (claimOrder SortKey.category
         ((handleChatTableSort
            (TableState.mk [SummaryRow.mk "b" "t" "i" "g" 2, SummaryRow.mk "A" "t" "i" "g" 1]
              SortKey.volume SortDir.desc) SortKey.category).sortDirection))) :=
  ⟨by decide,
   handleChatTableSort_spec
     (TableState.mk [SummaryRow.mk "b" "t" "i" "g" 2, SummaryRow.mk "A" "t" "i" "g" 1]
       SortKey.volume SortDir.desc) SortKey.category (by decide)⟩

/-- Relative order in a displayed row list: some occurrence of `x` appears
strictly before some occurrence of `y`. -/
def precedes (x y : SummaryRow) (l : List SummaryRow) : Prop :=
  ∃ i j : Fin l.length, i < j ∧ l.get i = x ∧ l.get j = y

instance (x y : SummaryRow) (l : List SummaryRow) : Decidable (precedes x y l) := by
  unfold precedes
  infer_instance

theorem precedes_rel {R : SummaryRow → SummaryRow → Prop} {l : List SummaryRow}
    (hp : l.Pairwise R) {x y : SummaryRow} (h : precedes x y l) : R x y := by
  obtain ⟨i, j, hij, hx, hy⟩ := h
  rw [← hx, ← hy]
  exact List.pairwise_iff_get.mp hp i j hij

theorem precedes_total {l : List SummaryRow} {x y : SummaryRow}
    (hx : x ∈ l) (hy : y ∈ l) (hne : x ≠ y) :
    precedes x y l ∨ precedes y x l := by
  obtain ⟨i, hi⟩ := List.mem_iff_get.mp hx
  obtain ⟨j, hj⟩ := List.mem_iff_get.mp hy
  rcases lt_trichotomy i j with h | h | h
  · exact Or.inl ⟨i, j, h, hi, hj⟩
  · exact absurd (by rw [← hi, ← hj, h]) hne
  · exact Or.inr ⟨j, i, h, hj, hi⟩

/-- Stability of the modelled JS sort as preservation of the subsequence
of any class of mutually tied elements. -/
theorem jsSort_filter_of_tied (cmp : SummaryRow → SummaryRow → Int)
    (p : SummaryRow → Bool)
    (hp : ∀ a b, p a = true → p b = true → cmp a b ≤ 0)
    (l : List SummaryRow) :
    (jsSort cmp l).filter p = l.filter p := by
  have hpw : (l.filter p).Pairwise (fun a b => cmp a b ≤ 0) := by
    apply List.pairwise_of_forall_mem_list
    intro a ha b hb
    exact hp a b (List.of_mem_filter ha) (List.of_mem_filter hb)
  have hsub : (l.filter p).Sublist (jsSort cmp l) :=
    List.sublist_insertionSort hpw (List.filter_sublist l)
  have hff : (l.filter p).filter p = l.filter p := by
    rw [List.filter_filter]
    simp
  have hsub2 : (l.filter p).Sublist ((jsSort cmp l).filter p) := by
    rw [← hff]
    exact hsub.filter p
  have hperm : ((jsSort cmp l).filter p).Perm (l.filter p) :=
    (jsSort_perm cmp l).filter p
  exact (hsub2.eq_of_length hperm.length_eq.symm).symm

/-- The table state after the initial Volume-descending render followed by
one Sort event on the `Volume` column (which flips the direction to
ascending and re-sorts). -/
def volumeToggledState (rows : List SummaryRow) : TableState :=
  handleChatTableSort (createChatSummaryTableState rows) SortKey.volume

theorem createChatSummaryTableState_sorted (rows : List SummaryRow) :
    (createChatSummaryTableState rows).data.Pairwise
      (fun a b => b.Volume ≤ a.Volume) := by
  have hs := jsSort_pairwise
    (fun a b : SummaryRow => (b.Volume : Int) - (a.Volume : Int))
    (fun a b c h1 h2 => by dsimp only at h1 h2 ⊢; omega)
    (fun a b => by dsimp only; omega) rows
  refine hs.imp ?_
  intro a b h
  omega

theorem createChatSummaryTableState_perm (rows : List SummaryRow) :
    (createChatSummaryTableState rows).data.Perm rows :=
  jsSort_perm _ rows

theorem volumeToggledState_eq (rows : List SummaryRow) :
    (volumeToggledState rows).data =
      jsSort (chatCompare SortKey.volume SortDir.asc)
        (createChatSummaryTableState rows).data ∨
    (rows = [] ∧ (volumeToggledState rows).data = []) := by
  by_cases h : (createChatSummaryTableState rows).data = []
  · right
    have : rows = [] := by
      have hl := (createChatSummaryTableState_perm rows).length_eq
      rw [h] at hl
      exact List.length_eq_zero.mp hl.symm
    refine ⟨this, ?_⟩
    rw [volumeToggledState, handleChatTableSort, if_pos h]
    exact h
  · left
    rw [volumeToggledState, handleChatTableSort, if_neg h]
    simp [createChatSummaryTableState, SortDir.toggle]

theorem volumeToggledState_sorted (rows : List SummaryRow) :
    (volumeToggledState rows).data.Pairwise (fun a b => a.Volume ≤ b.Volume) := by
  rcases volumeToggledState_eq rows with h | ⟨_, h⟩
  · rw [h]
    have hs := jsSort_pairwise (chatCompare SortKey.volume SortDir.asc)
      (chatCompare_le_trans SortKey.volume SortDir.asc)
      (chatCompare_le_total SortKey.volume SortDir.asc)
      (createChatSummaryTableState rows).data
    refine hs.imp ?_
    intro a b hab
    have := (chatCompare_nonpos_iff SortKey.volume SortDir.asc a b).mp hab
    simpa [claimOrder] using this
  · rw [h]
    exact List.Pairwise.nil

theorem volumeToggledState_perm (rows : List SummaryRow) :
    (volumeToggledState rows).data.Perm (createChatSummaryTableState rows).data := by
  rcases volumeToggledState_eq rows with h | ⟨hr, h⟩
  · rw [h]
    exact jsSort_perm _ _
  · rw [h, hr]
    simp [createChatSummaryTableState, jsSort]

/-- C4: after sorting by Volume descending (the initial render) and then by
Volume ascending (one Sort event on the Volume column), every pair of rows
with different Volume appears in the opposite relative order to the
descending view, while the subsequence of rows of any fixed Volume equals
the corresponding subsequence of the original data (ties keep their
original relative order: stability). -/
theorem volume_desc_then_asc_spec (rows : List SummaryRow) :
    (∀ x ∈ (volumeToggledState rows).data, ∀ y ∈ (volumeToggledState rows).data,
       x.Volume ≠ y.Volume →
       (precedes x y (volumeToggledState rows).data ↔
        precedes y x (createChatSummaryTableState rows).data)) ∧
    (∀ v : Nat,
       (volumeToggledState rows).data.filter (fun r => r.Volume = v) =
         rows.filter (fun r => r.Volume = v)) := by
  constructor
  · intro x hx y hy hvol
    have hxd : x ∈ (createChatSummaryTableState rows).data :=
      (volumeToggledState_perm rows).subset hx
    have hyd : y ∈ (createChatSummaryTableState rows).data :=
      (volumeToggledState_perm rows).subset hy
    have hxyne : x ≠ y := fun he => hvol (by rw [he])
    constructor
    · intro hpre
      have hle : x.Volume ≤ y.Volume := precedes_rel (volumeToggledState_sorted rows) hpre
      rcases precedes_total hyd hxd hxyne.symm with h | h
      · exact h
      · have : y.Volume ≤ x.Volume :=
          precedes_rel (createChatSummaryTableState_sorted rows) h
        omega
    · intro hpre
      have hge : x.Volume ≤ y.Volume :=
        precedes_rel (createChatSummaryTableState_sorted rows) hpre
      rcases precedes_total hx hy hxyne with h | h
      · exact h
      · have : y.Volume ≤ x.Volume := precedes_rel (volumeToggledState_sorted rows) h
        omega
  · intro v
    have hstep1 : (createChatSummaryTableState rows).data.filter
        (fun r => r.Volume = v) = rows.filter (fun r => r.Volume = v) := by
      apply jsSort_filter_of_tied
      intro a b ha hb
      simp only [decide_eq_true_iff] at ha hb
      omega
    rcases volumeToggledState_eq rows with h | ⟨hr, h⟩
    · rw [h]
      have hstep2 : (jsSort (chatCompare SortKey.volume SortDir.asc)
          (createChatSummaryTableState rows).data).filter (fun r => r.Volume = v) =
          (createChatSummaryTableState rows).data.filter (fun r => r.Volume = v) := by
        apply jsSort_filter_of_tied
        intro a b ha hb
        simp only [decide_eq_true_iff] at ha hb
        rw [chatCompare_nonpos_iff]
        simp [claimOrder, ha, hb]
      rw [hstep2, hstep1]
    · rw [h, hr]

/-- Witness for `volume_desc_then_asc_spec` at a concrete two-row table:
after descending then ascending Volume sorts, the low-Volume row precedes
the high-Volume row, reversing the descending order. -/
theorem volume_desc_then_asc_spec_witness :
    precedes (SummaryRow.mk "s" "t" "i" "g" 1) (SummaryRow.mk "c" "t" "i" "g" 2)
      (volumeToggledState
        [SummaryRow.mk "s" "t" "i" "g" 1, SummaryRow.mk "c" "t" "i" "g" 2]).data :=
  ((volume_desc_then_asc_spec
      [SummaryRow.mk "s" "t" "i" "g" 1, SummaryRow.mk "c" "t" "i" "g" 2]).1
    (SummaryRow.mk "s" "t" "i" "g" 1) (by decide)
    (SummaryRow.mk "c" "t" "i" "g" 2) (by decide)
    (by decide)).mpr (by decide)

/-! Filtering: `applyFilters` and the query built by
`fetchAndDisplayProjectSummary`. -/

/-- The client-only `selectedFilters` object. -/
structure FilterState where
  category : List String
  topic : List String
  intent : List String
  agentTask : List String
  isAutomatable : Bool
  sentimentMin : Option ℚ
  sentimentMax : Option ℚ
  durationMin : Option ℚ
  durationMax : Option ℚ
deriving DecidableEq, Repr

/-- A query-parameter value before `URLSearchParams` stringification:
either a string or a number. -/
inductive ParamValue where
  | strVal (s : String)
  | numVal (q : ℚ)
deriving DecidableEq, Repr

/-- JS `if (vals.length > 0) params.append(name, vals.join(','))`. -/
def listParam (name : String) (vals : List String) : List (String × ParamValue) :=
  if vals ≠ [] then [(name, ParamValue.strVal (String.intercalate "," vals))] else []

/-- JS `if (flag) params.append(name, '1')`. -/
def flagParam (name : String) (b : Bool) : List (String × ParamValue) :=
  if b then [(name, ParamValue.strVal "1")] else []

/-- JS `if (x !== null && x !== undefined) params.append(name, x)`. -/
def numParam (name : String) (o : Option ℚ) : List (String × ParamValue) :=
  match o with
  | some q => [(name, ParamValue.numVal q)]
  | none => []

/-- The `groupByColumns` array of `fetchAndDisplayProjectSummary`: the
dimensions whose visibility flag is not `false`, in fixed order. -/
def groupByColumns (v : Vis) : List String :=
  (if v.Category then ["category"] else []) ++
  (if v.Topic then ["topic"] else []) ++
  (if v.Intent then ["intent"] else []) ++
  (if v.Agent_Task then ["agent_task"] else [])

/-- The query parameters `fetchAndDisplayProjectSummary` appends, in
source order. -/
def buildSummaryParams (filters : Option FilterState) (visibleCols : Option Vis) :
    List (String × ParamValue) :=
  (match filters with
   | none => []
   | some f =>
     listParam "categories" f.category ++
     listParam "topics" f.topic ++
     listParam "intents" f.intent ++
     listParam "agent_tasks" f.agentTask ++
     flagParam "is_automatable" f.isAutomatable ++
     numParam "sentiment_min" f.sentimentMin ++
     numParam "sentiment_max" f.sentimentMax ++
     numParam "duration_min" f.durationMin ++
     numParam "duration_max" f.durationMax) ++
  (match visibleCols with
   | none => []
   | some v => listParam "group_by" (groupByColumns v))

/-- JS `applyFilters` always forwards both `selectedFilters` and
`visibleColumns` to `fetchAndDisplayProjectSummary`. -/
def applyFiltersParams (f : FilterState) (v : Vis) : List (String × ParamValue) :=
  buildSummaryParams (some f) (some v)

/-- On a successful summary response, `fetchAndDisplayProjectSummary` calls
`createChatSummaryTable`, which replaces `currentChatData` with the
returned rows and resets the sort to Volume descending. -/
def applyFiltersOnSuccess (summary : List SummaryRow) : TableState :=
  createChatSummaryTableState summary

theorem lookup_append (k : String) (l1 l2 : List (String × ParamValue)) :
    (l1 ++ l2).lookup k =
      (match l1.lookup k with
       | some v => some v
       | none => l2.lookup k) := by
  induction l1 with
  | nil => simp [List.lookup]
  | cons p rest ih =>
    obtain ⟨k0, v0⟩ := p
    by_cases h : k = k0
    · simp [List.lookup, h]
    · simp [List.lookup, beq_eq_false_iff_ne.mpr h, ih]

theorem lookup_listParam_self (name : String) (vals : List String) :
    (listParam name vals).lookup name =
      if vals = [] then none
      else some (ParamValue.strVal (String.intercalate "," vals)) := by
  by_cases h : vals = [] <;> simp [listParam, h, List.lookup]

theorem lookup_listParam_ne (name k : String) (vals : List String) (h : k ≠ name) :
    (listParam name vals).lookup k = none := by
  by_cases hv : vals = [] <;>
    simp [listParam, hv, List.lookup, beq_eq_false_iff_ne.mpr h]

theorem lookup_flagParam_ne (name k : String) (b : Bool) (h : k ≠ name) :
    (flagParam name b).lookup k = none := by
  cases b <;> simp [flagParam, List.lookup, beq_eq_false_iff_ne.mpr h]

theorem lookup_numParam_ne (name k : String) (o : Option ℚ) (h : k ≠ name) :
    (numParam name o).lookup k = none := by
  cases o <;> simp [numParam, List.lookup, beq_eq_false_iff_ne.mpr h]

/-- C5 (amended): the summary request issued by `applyFilters` carries each
list-valued parameter exactly when the corresponding multi-select is
non-empty, with the comma-join of the selected values; the `group_by`
parameter is present exactly when at least one dimension is visible, and
then lists exactly the dimensions whose visibility flag is not `false`
(when every dimension is hidden the parameter is omitted); a successful
response replaces the in-memory rows with the returned summary and resets
the sort to the Volume column, descending. -/
theorem applyFilters_spec (f : FilterState) (v : Vis) :
    ((applyFiltersParams f v).lookup "categories" =
       if f.category = [] then none
       else some (ParamValue.strVal (String.intercalate "," f.category))) ∧
    ((applyFiltersParams f v).lookup "topics" =
       if f.topic = [] then none
       else some (ParamValue.strVal (String.intercalate "," f.topic))) ∧
    ((applyFiltersParams f v).lookup "intents" =
       if f.intent = [] then none
       else some (ParamValue.strVal (String.intercalate "," f.intent))) ∧
    ((applyFiltersParams f v).lookup "agent_tasks" =
       if f.agentTask = [] then none
       else some (ParamValue.strVal (String.intercalate "," f.agentTask))) ∧
    ((applyFiltersParams f v).lookup "group_by" =
       if groupByColumns v = [] then none
       else some (ParamValue.strVal (String.intercalate "," (groupByColumns v)))) ∧
    (∀ rows : List SummaryRow,
       (applyFiltersOnSuccess rows).sortColumn = SortKey.volume ∧
       (applyFiltersOnSuccess rows).sortDirection = SortDir.desc ∧
       (applyFiltersOnSuccess rows).data.Perm rows) := by
  refine ⟨?_, ?_, ?_, ?_, ?_, ?_⟩
  · rw [applyFiltersParams, buildSummaryParams]
    simp only [List.append_assoc, lookup_append, lookup_listParam_self,
      lookup_listParam_ne, lookup_flagParam_ne, lookup_numParam_ne, ne_eq,
      reduceCtorEq, String.reduceEq, not_false_eq_true]
    by_cases h : f.category = [] <;> simp [h]
  · rw [applyFiltersParams, buildSummaryParams]
    simp only [List.append_assoc, lookup_append, lookup_listParam_self,
      lookup_listParam_ne, lookup_flagParam_ne, lookup_numParam_ne, ne_eq,
      reduceCtorEq, String.reduceEq, not_false_eq_true]
    by_cases h : f.topic = [] <;> simp [h]
  · rw [applyFiltersParams, buildSummaryParams]
    simp only [List.append_assoc, lookup_append, lookup_listParam_self,
      lookup_listParam_ne, lookup_flagParam_ne, lookup_numParam_ne, ne_eq,
      reduceCtorEq, String.reduceEq, not_false_eq_true]
    by_cases h : f.intent = [] <;> simp [h]
  · rw [applyFiltersParams, buildSummaryParams]
    simp only [List.append_assoc, lookup_append, lookup_listParam_self,
      lookup_listParam_ne, lookup_flagParam_ne, lookup_numParam_ne, ne_eq,
      reduceCtorEq, String.reduceEq, not_false_eq_true]
    by_cases h : f.agentTask = [] <;> simp [h]
  · rw [applyFiltersParams, buildSummaryParams]
    simp only [List.append_assoc, lookup_append, lookup_listParam_self,
      lookup_listParam_ne, lookup_flagParam_ne, lookup_numParam_ne, ne_eq,
      reduceCtorEq, String.reduceEq, not_false_eq_true]
  · intro rows
    exact ⟨rfl, rfl, jsSort_perm _ rows⟩

/-- C5 (counterexample to the claim as stated): when every dimension column
is hidden, the issued request carries no `group_by` parameter at all
(rather than a parameter listing the empty set of visible dimensions), and
by the API contract an absent `group_by` makes the server default to
grouping by all four dimensions. -/
theorem applyFilters_groupBy_counterexample :
    groupByColumns (Vis.mk false false false false) = [] ∧
    (applyFiltersParams
        (FilterState.mk [] [] [] [] false none none none none)
        (Vis.mk false false false false)).lookup "group_by" = none := by
  exact ⟨rfl, rfl⟩

/-! Rendering and column drag-and-drop: `createChatSummaryTable`,
`updateChatTableBody`, `attachChatTableDragDropHandlers`. -/

/-- The six table columns as rendered (the four dimensions, `Volume`, and
the `AI_Chat` icon column). -/
inductive ColKey where
  | category
  | topic
  | intent
  | agentTask
  | volume
  | aiChat
deriving DecidableEq, Repr

/-- The content of one rendered cell: the `'N/A'`-defaulted text of a data
cell, or the chat icon with its four quote-escaped onclick arguments. -/
inductive Cell where
  | text (s : String)
  | chatIcon (intent topic category agentTask : String)
deriving DecidableEq, Repr

/-- JS `(value || '').replace(/'/g, "\\'")`: escape single quotes (the
single-quote and backslash characters are written by code point). -/
def jsEscapeQuotes (s : String) : String :=
  s.replace (String.singleton (Char.ofNat 39))
    (String.singleton (Char.ofNat 92) ++ String.singleton (Char.ofNat 39))

/-- The cell `updateChatTableBody` (and `generateTableHTML`) emits for one
row and one column key: `row[key] || 'N/A'` for text cells (so a zero
`Volume` also renders `'N/A'`), and the icon with the four escaped row
fields for the `AI_Chat` column. -/
def cellOf (row : SummaryRow) : ColKey → Cell
  | .category => .text (if row.Category = "" then "N/A" else row.Category)
  | .topic => .text (if row.Topic = "" then "N/A" else row.Topic)
  | .intent => .text (if row.Intent = "" then "N/A" else row.Intent)
  | .agentTask => .text (if row.Agent_Task = "" then "N/A" else row.Agent_Task)
  | .volume => .text (if row.Volume = 0 then "N/A" else toString row.Volume)
  | .aiChat => .chatIcon (jsEscapeQuotes row.Intent) (jsEscapeQuotes row.Topic)
      (jsEscapeQuotes row.Category) (jsEscapeQuotes row.Agent_Task)

/-- One rendered body row: the cells in the current header order, each
tagged with its column key (`headerKeys.map(...)`). -/
def renderRow (order : List ColKey) (row : SummaryRow) : List (ColKey × Cell) :=
  order.map (fun k => (k, cellOf row k))

/-- The rendered table body: one rendered row per data row, in data
order. -/
def renderBody (order : List ColKey) (data : List SummaryRow) :
    List (List (ColKey × Cell)) :=
  data.map (renderRow order)

/-- The client view state a Reorder event acts on: the in-memory rows and
sort state, the DOM header order, and the panel filter state. -/
structure ViewState where
  data : List SummaryRow
  sortColumn : SortKey
  sortDirection : SortDir
  headerOrder : List ColKey
  filters : FilterState
deriving Repr

/-- DOM `insertBefore(dragColumn, dropTarget)` (or `dropTarget.nextSibling`)
on the header row with the dragged column already removed: insert the
dragged key before or after the first occurrence of the target key. -/
def insertAtTarget (drag target : ColKey) (insBefore : Bool) :
    List ColKey → List ColKey
  | [] => [drag]
  | k :: rest =>
    if k = target then
      (if insBefore then drag :: k :: rest else k :: drag :: rest)
    else k :: insertAtTarget drag target insBefore rest

/-- The header mutation of the `drop` handler: no change when the drag and
drop targets coincide (the handler returns early), otherwise move the
dragged header before or after the drop target. -/
def moveColumn (order : List ColKey) (drag target : ColKey) (insBefore : Bool) :
    List ColKey :=
  if drag = target then order
  else insertAtTarget drag target insBefore (order.erase drag)

/-- A full Reorder event: the drop handler moves the header cell and then
`updateChatTableBody` re-renders the body from `currentChatData` and the
new header order; no other state is touched. -/
def dropColumnEvent (st : ViewState) (drag target : ColKey) (insBefore : Bool) :
    ViewState :=
  { st with headerOrder := moveColumn st.headerOrder drag target insBefore }

theorem insertAtTarget_perm (drag target : ColKey) (b : Bool) :
    ∀ l : List ColKey, (insertAtTarget drag target b l).Perm (drag :: l) := by
  intro l
  induction l with
  | nil => simp [insertAtTarget]
  | cons k rest ih =>
    by_cases h : k = target
    · cases b <;> simp [insertAtTarget, h]
      exact List.Perm.swap drag target rest
    · simp only [insertAtTarget, if_neg h]
      exact (ih.cons k).trans (List.Perm.swap drag k rest)

theorem moveColumn_perm (order : List ColKey) (drag target : ColKey) (b : Bool)
    (h : drag ∈ order) : (moveColumn order drag target b).Perm order := by
  by_cases he : drag = target
  · simp [moveColumn, he]
  · rw [moveColumn, if_neg he]
    exact (insertAtTarget_perm drag target b (order.erase drag)).trans
      (List.perm_cons_erase h).symm

/-- C6: a column drag-and-drop Reorder event permutes the header order and
hence each rendered body row's list of (column key, cell) pairs — the same
pairs per row, in particular the same `Volume` cell — while
`currentChatData`, the current sort column and direction, and the filter
state are unchanged. -/
theorem reorder_preserves_rows (st : ViewState) (drag target : ColKey)
    (insBefore : Bool) (hdrag : drag ∈ st.headerOrder) :
    (∀ row : SummaryRow,
       (renderRow (dropColumnEvent st drag target insBefore).headerOrder row).Perm
         (renderRow st.headerOrder row)) ∧
    ((dropColumnEvent st drag target insBefore).headerOrder).Perm st.headerOrder ∧
    (dropColumnEvent st drag target insBefore).data = st.data ∧
    (dropColumnEvent st drag target insBefore).sortColumn = st.sortColumn ∧
    (dropColumnEvent st drag target insBefore).sortDirection = st.sortDirection ∧
    (dropColumnEvent st drag target insBefore).filters = st.filters := by
  refine ⟨?_, ?_, rfl, rfl, rfl, rfl⟩
  · intro row
    exact (moveColumn_perm st.headerOrder drag target insBefore hdrag).map _
  · exact moveColumn_perm st.headerOrder drag target insBefore hdrag

/-- Witness for `reorder_preserves_rows`: dragging the Category header
after the Volume header on a one-row table. -/
theorem reorder_preserves_rows_witness :
    ColKey.category ∈
      (ViewState.mk [SummaryRow.mk "c" "t" "i" "g" 3] SortKey.volume SortDir.desc
        [ColKey.category, ColKey.topic, ColKey.volume, ColKey.aiChat]
        (FilterState.mk [] [] [] [] false none none none none)).headerOrder ∧
    ((∀ row : SummaryRow,
       (renderRow (dropColumnEvent
           (ViewState.mk [SummaryRow.mk "c" "t" "i" "g" 3] SortKey.volume SortDir.desc
             [ColKey.category, ColKey.topic, ColKey.volume, ColKey.aiChat]
             (FilterState.mk [] [] [] [] false none none none none))
           ColKey.category ColKey.volume false).headerOrder row).Perm
         (renderRow
           (ViewState.mk [SummaryRow.mk "c" "t" "i" "g" 3] SortKey.volume SortDir.desc
             [ColKey.category, ColKey.topic, ColKey.volume, ColKey.aiChat]
             (FilterState.mk [] [] [] [] false none none none none)).headerOrder row)) ∧
     ((dropColumnEvent
         (ViewState.mk [SummaryRow.mk "c" "t" "i" "g" 3] SortKey.volume SortDir.desc
           [ColKey.category, ColKey.topic, ColKey.volume, ColKey.aiChat]
           (FilterState.mk [] [] [] [] false none none none none))
         ColKey.category ColKey.volume false).headerOrder).Perm
       (ViewState.mk [SummaryRow.mk "c" "t" "i" "g" 3] SortKey.volume SortDir.desc
         [ColKey.category, ColKey.topic, ColKey.volume, ColKey.aiChat]
         (FilterState.mk [] [] [] [] false none none none none)).headerOrder ∧
     (dropColumnEvent
         (ViewState.mk [SummaryRow.mk "c" "t" "i" "g" 3] SortKey.volume SortDir.desc
           [ColKey.category, ColKey.topic, ColKey.volume, ColKey.aiChat]
           (FilterState.mk [] [] [] [] false none none none none))
         ColKey.category ColKey.volume false).data =
       (ViewState.mk [SummaryRow.mk "c" "t" "i" "g" 3] SortKey.volume SortDir.desc
         [ColKey.category, ColKey.topic, ColKey.volume, ColKey.aiChat]
         (FilterState.mk [] [] [] [] false none none none none)).data ∧
     (dropColumnEvent
         (ViewState.mk [SummaryRow.mk "c" "t" "i" "g" 3] SortKey.volume SortDir.desc
           [ColKey.category, ColKey.topic, ColKey.volume, ColKey.aiChat]
           (FilterState.mk [] [] [] [] false none none none none))
         ColKey.category ColKey.volume false).sortColumn =
       (ViewState.mk [SummaryRow.mk "c" "t" "i" "g" 3] SortKey.volume SortDir.desc
         [ColKey.category, ColKey.topic, ColKey.volume, ColKey.aiChat]
         (FilterState.mk [] [] [] [] false none none none none)).sortColumn ∧
     (dropColumnEvent
         (ViewState.mk [SummaryRow.mk "c" "t" "i" "g" 3] SortKey.volume SortDir.desc
           [ColKey.category, ColKey.topic, ColKey.volume, ColKey.aiChat]
           (FilterState.mk [] [] [] [] false none none none none))
         ColKey.category ColKey.volume false).sortDirection =
       (ViewState.mk [SummaryRow.mk "c" "t" "i" "g" 3] SortKey.volume SortDir.desc
         [ColKey.category, ColKey.topic, ColKey.volume, ColKey.aiChat]
         (FilterState.mk [] [] [] [] false none none none none)).sortDirection ∧
     (dropColumnEvent
         (ViewState.mk [SummaryRow.mk "c" "t" "i" "g" 3] SortKey.volume SortDir.desc
           [ColKey.category, ColKey.topic, ColKey.volume, ColKey.aiChat]
           (FilterState.mk [] [] [] [] false none none none none))
         ColKey.category ColKey.volume false).filters =
       (ViewState.mk [SummaryRow.mk "c" "t" "i" "g" 3] SortKey.volume SortDir.desc
         [ColKey.category, ColKey.topic, ColKey.volume, ColKey.aiChat]
         (FilterState.mk [] [] [] [] false none none none none)).filters) :=
  ⟨by decide,
   reorder_preserves_rows
     (ViewState.mk [SummaryRow.mk "c" "t" "i" "g" 3] SortKey.volume SortDir.desc
       [ColKey.category, ColKey.topic, ColKey.volume, ColKey.aiChat]
       (FilterState.mk [] [] [] [] false none none none none))
     ColKey.category ColKey.volume false (by decide)⟩

/-! Chat context: the per-dimension filters `openAIChat` builds for
`/chat/prepare` and `/chat/query`. -/

/-- The constraint `openAIChat` places on one dimension: the clicked row's
single value (the `category`/`topic`/`intent`/`agent_task` key), the
comma-joined panel multi-select (the plural `categories`/... key), or no
key at all. -/
inductive DimConstraint where
  | rowValue (s : String)
  | panelValues (s : String)
  | noConstraint
deriving DecidableEq, Repr

/-- The four per-dimension chat filters. -/
structure ChatDimFilters where
  category : DimConstraint
  topic : DimConstraint
  intent : DimConstraint
  agentTask : DimConstraint
deriving DecidableEq, Repr

/-- Field access for a dimension key. -/
def ChatDimFilters.get (c : ChatDimFilters) : DimKey → DimConstraint
  | .category => c.category
  | .topic => c.topic
  | .intent => c.intent
  | .agentTask => c.agentTask

/-- The panel multi-select for a dimension key (`selectedFilters`). -/
def FilterState.sel (f : FilterState) : DimKey → List String
  | .category => f.category
  | .topic => f.topic
  | .intent => f.intent
  | .agentTask => f.agentTask

/-- The per-dimension filter construction of `openAIChat`: for each
dimension, use the clicked row's value when the column is visible
(`visibleColumns[key] !== false`), else the comma-join of the panel
multi-select when it is non-empty, else nothing. -/
def openAIChatFilters (vis : Vis) (rowData : SummaryRow) (sel : FilterState) :
    ChatDimFilters :=
  { category :=
      if vis.Category then DimConstraint.rowValue rowData.Category
      else if sel.category ≠ [] then
        DimConstraint.panelValues (String.intercalate "," sel.category)
      else DimConstraint.noConstraint
    topic :=
      if vis.Topic then DimConstraint.rowValue rowData.Topic
      else if sel.topic ≠ [] then
        DimConstraint.panelValues (String.intercalate "," sel.topic)
      else DimConstraint.noConstraint
    intent :=
      if vis.Intent then DimConstraint.rowValue rowData.Intent
      else if sel.intent ≠ [] then
        DimConstraint.panelValues (String.intercalate "," sel.intent)
      else DimConstraint.noConstraint
    agentTask :=
      if vis.Agent_Task then DimConstraint.rowValue rowData.Agent_Task
      else if sel.agentTask ≠ [] then
        DimConstraint.panelValues (String.intercalate "," sel.agentTask)
      else DimConstraint.noConstraint }

/-- C7: for every clicked row, visibility map and panel filter state, and
for each dimension, the chat-context constraint is the clicked row's
single value when the dimension is visible, otherwise the comma-join of
the panel multi-select when that is non-empty, otherwise no constraint —
the asymmetric precedence the spec flags. -/
theorem openAIChat_filter_precedence (vis : Vis) (rowData : SummaryRow)
    (sel : FilterState) (k : DimKey) :
    (openAIChatFilters vis rowData sel).get k =
      (if Vis.get vis k then DimConstraint.rowValue (rowData.get k)
       else if FilterState.sel sel k ≠ [] then
         DimConstraint.panelValues (String.intercalate "," (sel.sel k))
       else DimConstraint.noConstraint) := by
  cases k <;> rfl

/-! Summary fetch outcome: `fetchAndDisplayProjectSummary` and the
placeholder row of `createChatSummaryTable`. -/

/-- JS `m || d` for an optional string: the default replaces both a
missing value and the empty string (the only falsy string). -/
def jsOrElse (m : Option String) (d : String) : String :=
  match m with
  | some s => if s = "" then d else s
  | none => d

/-- The parsed JSON body of a summary response: `success`, the optional
`summary` array, and the optional `message`. -/
structure SummaryBody where
  success : Bool
  summary : Option (List SummaryRow)
  message : Option String
deriving DecidableEq, Repr

/-- What the `fetch` of `fetchAndDisplayProjectSummary` can produce: a
transport failure (rejected fetch or JSON parse error) or an HTTP reply
with a status code and a parsed body. -/
inductive FetchReply where
  | netFailure (details : String)
  | httpReply (status : Nat) (body : SummaryBody)
deriving DecidableEq, Repr

/-- What ends up on screen: the inline error view of the catch block, or
the summary table, whose body is either the data rows or one placeholder
row with an explanatory text. -/
inductive RenderedView where
  | errorView (details : String)
  | table (rows : List SummaryRow) (placeholder : Option String)
deriving DecidableEq, Repr

/-- JS `createChatSummaryTable(data, projectName, message)`: the rows are
sorted by Volume descending, and when `data` is empty the single body row
is a placeholder carrying `message || 'No data found for this project.'`. -/
def createChatSummaryTable (data : List SummaryRow) (message : Option String) :
    RenderedView :=
  RenderedView.table (jsSort (fun a b => (b.Volume : Int) - (a.Volume : Int)) data)
    (if data = [] then some (jsOrElse message "No data found for this project.")
     else none)

/-- JS `response.ok`: status in the inclusive range 200–299. -/
def respOk (status : Nat) : Bool := decide (200 ≤ status ∧ status ≤ 299)

/-- JS `fetchAndDisplayProjectSummary` after the request resolves: a transport
failure or a non-ok status lands in the catch block and renders the error
view; otherwise `success && summary` (any array, also an empty one, is
truthy) renders the table from the rows, and any other body renders the
table with no rows and `summaryData.message || 'No summary data
returned.'`. -/
def fetchAndDisplayProjectSummary (reply : FetchReply) : RenderedView :=
  match reply with
  | .netFailure details => .errorView details
  | .httpReply status body =>
    if !(respOk status) then
      .errorView ("HTTP error! status: " ++ toString status)
    else if body.success && body.summary.isSome then
      createChatSummaryTable (body.summary.getD []) none
    else
      createChatSummaryTable [] (some (jsOrElse body.message "No summary data returned."))

/-- Whether a rendered view is the error view. -/
def isErrorView : RenderedView → Bool
  | .errorView _ => true
  | .table _ _ => false

/-- Whether the reply is a transport failure or a non-ok HTTP status. -/
def isFetchFailure : FetchReply → Bool
  | .netFailure _ => true
  | .httpReply status _ => !(respOk status)

/-- C8: a successful response whose summary is the empty list renders the
table with a single placeholder row carrying the default no-data text,
never the error view; and the error view appears exactly for transport
failures and non-ok HTTP statuses, so an empty result is distinguishable
from an error. -/
theorem empty_summary_renders_placeholder :
    (∀ (status : Nat) (body : SummaryBody),
       respOk status = true → body.success = true → body.summary = some [] →
       fetchAndDisplayProjectSummary (FetchReply.httpReply status body) =
         RenderedView.table [] (some "No data found for this project.")) ∧
    (∀ reply : FetchReply,
       isErrorView (fetchAndDisplayProjectSummary reply) = isFetchFailure reply) := by
  constructor
  · intro status body hok hs hsum
    simp [fetchAndDisplayProjectSummary, hok, hs, hsum, createChatSummaryTable,
      jsSort, jsOrElse]
  · intro reply
    cases reply with
    | netFailure details => rfl
    | httpReply status body =>
      by_cases hok : respOk status = true
      · by_cases hs : (body.success && body.summary.isSome) = true <;>
          simp [fetchAndDisplayProjectSummary, hok, hs, createChatSummaryTable,
            isErrorView, isFetchFailure]
      · simp only [Bool.not_eq_true] at hok
        simp [fetchAndDisplayProjectSummary, hok, isErrorView, isFetchFailure]

/-- Witness for `empty_summary_renders_placeholder` at status 200 with a
successful empty-summary body. -/
theorem empty_summary_renders_placeholder_witness :
    respOk 200 = true ∧
    (SummaryBody.mk true (some []) none).success = true ∧
    (SummaryBody.mk true (some []) none).summary = some [] ∧
    fetchAndDisplayProjectSummary
        (FetchReply.httpReply 200 (SummaryBody.mk true (some []) none)) =
      RenderedView.table [] (some "No data found for this project.") :=
  ⟨by decide, rfl, rfl,
   empty_summary_renders_placeholder.1 200 (SummaryBody.mk true (some []) none)
     (by decide) rfl rfl⟩

/-! Range sliders: the `updateRange` closures of the sentiment and
duration slider setup functions. -/

/-- A pair of range inputs (`minSlider.value`, `maxSlider.value`). -/
structure TwoSlider where
  minV : ℚ
  maxV : ℚ
deriving DecidableEq, Repr

/-- An HTML range input clamps an assigned value to its `min`/`max`
attributes. -/
def clampQ (lo hi x : ℚ) : ℚ := max lo (min hi x)

/-- First clamp of `updateRange`: `if (min > max - gap) minSlider.value =
max - gap`, the write clamped by the input element; `mn`/`mx` are the
values read at the top of the closure. -/
def sliderClampMin (lo hi gap mn mx : ℚ) (s : TwoSlider) : TwoSlider :=
  if mn > mx - gap then { s with minV := clampQ lo hi (mx - gap) } else s

/-- Second clamp of `updateRange`: `if (max < min + gap) maxSlider.value =
min + gap`, still using the originally read `min`. -/
def sliderClampMax (lo hi gap mn mx : ℚ) (s : TwoSlider) : TwoSlider :=
  if mx < mn + gap then { s with maxV := clampQ lo hi (mn + gap) } else s

/-- The shared body of the two `updateRange` closures (gap 0.01 for
sentiment, 1 for duration): both conditions test the values read at entry,
then the sliders are re-read. -/
def sliderUpdateRange (lo hi gap : ℚ) (s : TwoSlider) : TwoSlider :=
  sliderClampMax lo hi gap s.minV s.maxV (sliderClampMin lo hi gap s.minV s.maxV s)

theorem clampQ_mono (lo hi : ℚ) {x y : ℚ} (h : x ≤ y) :
    clampQ lo hi x ≤ clampQ lo hi y :=
  max_le_max (le_refl lo) (min_le_min (le_refl hi) h)

theorem sliderUpdateRange_le (lo hi gap : ℚ) (hgap : 0 ≤ gap) (s : TwoSlider) :
    (sliderUpdateRange lo hi gap s).minV ≤ (sliderUpdateRange lo hi gap s).maxV := by
  simp only [sliderUpdateRange, sliderClampMin, sliderClampMax]
  by_cases h1 : s.minV > s.maxV - gap
  · by_cases h2 : s.maxV < s.minV + gap
    · rw [if_pos h1, if_pos h2]
      exact clampQ_mono lo hi (by linarith)
    · rw [if_pos h1, if_neg h2]
      push_neg at h2
      linarith
  · by_cases h2 : s.maxV < s.minV + gap
    · rw [if_neg h1, if_pos h2]
      push_neg at h1
      linarith
    · rw [if_neg h1, if_neg h2]
      push_neg at h1
      linarith

/-- The numeric filter fields the sliders maintain in `selectedFilters`
once the sliders have been set up. -/
structure RangeFilters where
  sentimentMin : ℚ
  sentimentMax : ℚ
  durationMin : ℚ
  durationMax : ℚ
deriving DecidableEq, Repr

/-- The filter-panel slider state: both slider pairs, their data ranges
fetched at setup, and the filter fields they maintain. -/
structure SliderPanel where
  sentLo : ℚ
  sentHi : ℚ
  durLo : ℚ
  durHi : ℚ
  sent : TwoSlider
  dur : TwoSlider
  filters : RangeFilters
deriving DecidableEq, Repr

/-- The gap constant `0.01` of the sentiment `updateRange`. -/
def sentGap : ℚ := 1 / 100

/-- The gap constant `1` of the duration `updateRange`. -/
def durGap : ℚ := 1

/-- Run the sentiment `updateRange` and store the re-read slider values in
`selectedFilters.sentimentMin`/`sentimentMax`. -/
def runSentUpdate (p : SliderPanel) : SliderPanel :=
  let s := sliderUpdateRange p.sentLo p.sentHi sentGap p.sent
  { p with
      sent := s
      filters := { p.filters with sentimentMin := s.minV, sentimentMax := s.maxV } }

/-- Run the duration `updateRange` and store the re-read slider values in
`selectedFilters.durationMin`/`durationMax`. -/
def runDurUpdate (p : SliderPanel) : SliderPanel :=
  let s := sliderUpdateRange p.durLo p.durHi durGap p.dur
  { p with
      dur := s
      filters := { p.filters with durationMin := s.minV, durationMax := s.maxV } }

/-- A slider `input` event: the user moves one thumb (the element clamps
the new value to the data range) and the corresponding `updateRange`
listener runs. -/
inductive SliderEvent where
  | sentMin (v : ℚ)
  | sentMax (v : ℚ)
  | durMin (v : ℚ)
  | durMax (v : ℚ)
deriving DecidableEq, Repr

/-- One slider movement followed by its `updateRange` listener. -/
def sliderStep (p : SliderPanel) : SliderEvent → SliderPanel
  | .sentMin v =>
    runSentUpdate { p with sent := { p.sent with minV := clampQ p.sentLo p.sentHi v } }
  | .sentMax v =>
    runSentUpdate { p with sent := { p.sent with maxV := clampQ p.sentLo p.sentHi v } }
  | .durMin v =>
    runDurUpdate { p with dur := { p.dur with minV := clampQ p.durLo p.durHi v } }
  | .durMax v =>
    runDurUpdate { p with dur := { p.dur with maxV := clampQ p.durLo p.durHi v } }

/-- Slider initialization: `initializeSentimentSlider` then
`initializeDurationSlider`.  Each sets its slider values (clamped by the
element) from the restored filter values or the data range, writes them to
`selectedFilters`, and ends with an initial `updateRange` call, which
overwrites those fields with the validated values. -/
def sliderPanelInit (sentLo sentHi durLo durHi : ℚ) (s0 d0 : TwoSlider) :
    SliderPanel :=
  runDurUpdate (runSentUpdate
    { sentLo := sentLo
      sentHi := sentHi
      durLo := durLo
      durHi := durHi
      sent := { minV := clampQ sentLo sentHi s0.minV, maxV := clampQ sentLo sentHi s0.maxV }
      dur := { minV := clampQ durLo durHi d0.minV, maxV := clampQ durLo durHi d0.maxV }
      filters :=
        { sentimentMin := clampQ sentLo sentHi s0.minV
          sentimentMax := clampQ sentLo sentHi s0.maxV
          durationMin := clampQ durLo durHi d0.minV
          durationMax := clampQ durLo durHi d0.maxV } })

/-- The filter state after initialization and an arbitrary sequence of
slider movements. -/
def sliderPanelRun (sentLo sentHi durLo durHi : ℚ) (s0 d0 : TwoSlider)
    (events : List SliderEvent) : SliderPanel :=
  events.foldl sliderStep (sliderPanelInit sentLo sentHi durLo durHi s0 d0)

/-- The min ≤ max invariant for both filter ranges. -/
def rangeInvariant (p : SliderPanel) : Prop :=
  p.filters.sentimentMin ≤ p.filters.sentimentMax ∧
  p.filters.durationMin ≤ p.filters.durationMax

theorem runSentUpdate_sent_le (p : SliderPanel) :
    (runSentUpdate p).filters.sentimentMin ≤ (runSentUpdate p).filters.sentimentMax :=
  sliderUpdateRange_le p.sentLo p.sentHi sentGap (by norm_num [sentGap]) p.sent

theorem runDurUpdate_dur_le (p : SliderPanel) :
    (runDurUpdate p).filters.durationMin ≤ (runDurUpdate p).filters.durationMax :=
  sliderUpdateRange_le p.durLo p.durHi durGap (by norm_num [durGap]) p.dur

theorem sliderStep_invariant (p : SliderPanel) (e : SliderEvent)
    (h : rangeInvariant p) : rangeInvariant (sliderStep p e) := by
  cases e with
  | sentMin v => exact ⟨runSentUpdate_sent_le _, h.2⟩
  | sentMax v => exact ⟨runSentUpdate_sent_le _, h.2⟩
  | durMin v => exact ⟨h.1, runDurUpdate_dur_le _⟩
  | durMax v => exact ⟨h.1, runDurUpdate_dur_le _⟩

theorem foldl_sliderStep_invariant :
    ∀ (events : List SliderEvent) (p : SliderPanel), rangeInvariant p →
      rangeInvariant (events.foldl sliderStep p) := by
  intro events
  induction events with
  | nil => exact fun p h => h
  | cons e rest ih => exact fun p h => ih _ (sliderStep_invariant p e h)

/-- C9: after slider initialization and after every sentiment or duration
slider input event — for every sequence of slider movements — the filter
state satisfies `sentimentMin ≤ sentimentMax` and
`durationMin ≤ durationMax`. -/
theorem slider_range_invariant (sentLo sentHi durLo durHi : ℚ)
    (s0 d0 : TwoSlider) (events : List SliderEvent) :
    rangeInvariant (sliderPanelRun sentLo sentHi durLo durHi s0 d0 events) := by
  apply foldl_sliderStep_invariant
  exact ⟨runSentUpdate_sent_le _, runDurUpdate_dur_le _⟩

/-! Project lists: `loadProjectsToTable` and
`loadProjectsToChatDropdown`. -/

/-- A project as returned by `GET /api/projects`, restricted to the fields
these two functions read. -/
structure Project where
  id : Nat
  name : String
  total_records : Nat
deriving DecidableEq, Repr

/-- JS `loadProjectsToTable` on a successful response: sort the projects by
`id` descending (`sort((a, b) => b.id - a.id)`) and append to the admin
table exactly those with `total_records > 0`. -/
def loadProjectsToTable (projects : List Project) : List Project :=
  (jsSort (fun a b => (b.id : Int) - (a.id : Int)) projects).filter
    (fun p => 0 < p.total_records)

/-- JS `loadProjectsToChatDropdown`: `successfulProjects`, the projects with
`total_records > 0` in server order, rendered as the dropdown entries. -/
def chatDropdownProjects (projects : List Project) : List Project :=
  projects.filter (fun p => 0 < p.total_records)

/-- The automatic selection at the end of `loadProjectsToChatDropdown`:
when `successfulProjects` is non-empty, `selectChatProject` runs on its
first entry, which fetches that project's summary without user action. -/
def chatAutoFetch (projects : List Project) : Option (Nat × String) :=
  (chatDropdownProjects projects).head?.map (fun p => (p.id, p.name))

/-- C10: both the admin results table and the chat dropdown display exactly
the projects with `total_records > 0`, and whenever the dropdown list is
non-empty its first project is auto-selected and its summary fetch issued. -/
theorem projects_filtered_and_autoselected (projects : List Project) :
    (∀ p : Project, p ∈ loadProjectsToTable projects ↔
       (p ∈ projects ∧ 0 < p.total_records)) ∧
    (∀ p : Project, p ∈ chatDropdownProjects projects ↔
       (p ∈ projects ∧ 0 < p.total_records)) ∧
    (∀ (p : Project) (rest : List Project),
       chatDropdownProjects projects = p :: rest →
       chatAutoFetch projects = some (p.id, p.name)) := by
  refine ⟨?_, ?_, ?_⟩
  · intro p
    simp [loadProjectsToTable, jsSort, List.mem_filter, List.mem_insertionSort]
  · intro p
    simp [chatDropdownProjects, List.mem_filter]
  · intro p rest h
    simp [chatAutoFetch, h]

/-- Witness for `projects_filtered_and_autoselected`: a zero-record project
is dropped and the first remaining project is auto-fetched. -/
theorem projects_filtered_and_autoselected_witness :
    chatDropdownProjects [Project.mk 1 "a" 0, Project.mk 2 "b" 3] =
      [Project.mk 2 "b" 3] ∧
    chatAutoFetch [Project.mk 1 "a" 0, Project.mk 2 "b" 3] = some (2, "b") :=
  ⟨by decide,
   (projects_filtered_and_autoselected [Project.mk 1 "a" 0, Project.mk 2 "b" 3]).2.2
     (Project.mk 2 "b" 3) [] (by decide)⟩

end TranscriptsToChat
